import Mathlib

/-!
Verification development for the Project-Oversight-Dashboard repository.

The repository has two source files:
* `app.py` — the dashboard controller: four read-only SQL views over a SQLite
  database (KPI cards, status grid, S-curve history, risk bubbles);
* `data.generator.py` — a synthetic data generator that populates the
  `workstreams`, `progress` and `change_requests` tables.

We embed the three tables as lists of records, the SQL queries as list
functions (with SQL `NULL`-producing aggregates returning `Option`), and the
generator's per-workstream loop as a state recursion parameterised by the
sequences of random draws.  SQLite `REAL` values are modelled as rationals,
and the ISO `YYYY-MM-DD` text dates (which SQLite compares bytewise, hence
chronologically) as `ℕ` numerals `YYYYMMDD`, an order-preserving encoding.
-/

namespace Oversight

/-- Reporting-date key: the `YYYYMMDD` numeral standing for the ISO date
string stored in the database (same linear order as SQLite's byte order on
`YYYY-MM-DD` strings). -/
abbrev Date := ℕ

/-- A row of the `workstreams` table (`create_schema`, data.generator.py). -/
structure Workstream where
  ws_id : String
  name : String
  owner : String
  budget : ℚ
  complexity : String
  deriving DecidableEq

/-- A row of the `progress` table (`create_schema`, data.generator.py).
The autoincrement surrogate `id` plays no role in any query and is omitted. -/
structure Progress where
  week_ending : Date
  ws_id : String
  planned_pct : ℚ
  actual_pct : ℚ
  budget_spent : ℚ
  schedule_variance : ℚ
  cpi : ℚ
  deriving DecidableEq

/-- A row of the `change_requests` table (`create_schema`, data.generator.py). -/
structure ChangeRequest where
  cr_id : String
  ws_id : String
  date_raised : Date
  title : String
  status : String
  cost_impact : ℚ
  time_impact_days : ℤ
  deriving DecidableEq

/-- The fact set: the three tables read by the dashboard route. -/
structure DB where
  workstreams : List Workstream
  progress : List Progress
  change_requests : List ChangeRequest
  deriving DecidableEq

/-- SQL `MAX` over a column: `NULL` (`none`) on an empty table. -/
def sqlMax : List Date → Option Date
  | [] => none
  | d :: ds =>
    match sqlMax ds with
    | none => some d
    | some m => some (max d m)

/-- `(SELECT MAX(week_ending) FROM progress)` — the latest-week subquery
shared by the KPI, status-grid and bubble queries in `app.py`. -/
def latestWeek (db : DB) : Option Date :=
  sqlMax (db.progress.map (·.week_ending))

/-- SQL `SUM` over a (non-`NULL`) column: `NULL` when there are no rows. -/
def sqlSum : List ℚ → Option ℚ
  | [] => none
  | l => some l.sum

/-- SQL `AVG` over a (non-`NULL`) column: `NULL` when there are no rows. -/
def sqlAvg : List ℚ → Option ℚ
  | [] => none
  | l => some (l.sum / l.length)

/-- The `progress` rows selected by `WHERE week_ending = (SELECT MAX(week_ending)
FROM progress)` (no row qualifies when the subquery yields `NULL`). -/
def latestRows (db : DB) : List Progress :=
  db.progress.filter fun p => decide (latestWeek db = some p.week_ending)

/-- Result row of `kpi_query` in `app.py`. -/
structure KpiRow where
  total_spend : Option ℚ
  avg_cpi : Option ℚ
  active_risks : ℕ
  deriving DecidableEq

/-- `kpi_query` (app.py lines 26–34): latest-week spend total and CPI mean,
plus the portfolio-wide count of approved change requests. -/
def kpiData (db : DB) : KpiRow :=
  { total_spend := sqlSum ((latestRows db).map (·.budget_spent))
    avg_cpi := sqlAvg ((latestRows db).map (·.cpi))
    active_risks :=
      (db.change_requests.filter fun c => decide (c.status = "Approved")).length }

/-- Result row of `status_query` in `app.py`. -/
structure StatusRow where
  ws_id : String
  name : String
  owner : String
  actual_pct : ℚ
  planned_pct : ℚ
  schedule_variance : ℚ
  budget_spent : ℚ
  cpi : ℚ
  deriving DecidableEq

/-- The `ORDER BY p.schedule_variance ASC` comparison of `status_query`. -/
def varLE (a b : StatusRow) : Prop :=
  a.schedule_variance ≤ b.schedule_variance

instance : DecidableRel varLE :=
  fun a b => inferInstanceAs (Decidable (a.schedule_variance ≤ b.schedule_variance))

instance : IsTotal StatusRow varLE :=
  ⟨fun a b => le_total a.schedule_variance b.schedule_variance⟩

instance : IsTrans StatusRow varLE :=
  ⟨fun _ _ _ h1 h2 => le_trans h1 h2⟩

/-- A workstream's snapshots at the latest week: the rows selected by the
join conditions `ON <ws_id> WHERE p.week_ending = (SELECT MAX(week_ending)
FROM progress)` shared by `status_query` and `bubble_query`. -/
def latestOf (db : DB) (i : String) : List Progress :=
  db.progress.filter fun p =>
    decide (p.ws_id = i ∧ latestWeek db = some p.week_ending)

/-- The columns `status_query` selects from a joined workstream/progress pair. -/
def statusRowOf (w : Workstream) (p : Progress) : StatusRow :=
  { ws_id := w.ws_id, name := w.name, owner := w.owner,
    actual_pct := p.actual_pct, planned_pct := p.planned_pct,
    schedule_variance := p.schedule_variance,
    budget_spent := p.budget_spent, cpi := p.cpi }

/-- The unsorted result of `status_query`'s inner join
`workstreams JOIN progress ON ws_id` restricted to the latest week. -/
def statusJoin (db : DB) : List StatusRow :=
  db.workstreams.flatMap fun w =>
    (latestOf db w.ws_id).map (statusRowOf w)

/-- `status_query` (app.py lines 41–56): the latest-week join ordered by
`schedule_variance` ascending. -/
def statusGrid (db : DB) : List StatusRow :=
  List.insertionSort varLE (statusJoin db)

/-- `history_query` row order: `ORDER BY week_ending ASC`. -/
def weekLE (a b : Progress) : Prop :=
  a.week_ending ≤ b.week_ending

instance : DecidableRel weekLE :=
  fun a b => inferInstanceAs (Decidable (a.week_ending ≤ b.week_ending))

instance : IsTotal Progress weekLE :=
  ⟨fun a b => le_total a.week_ending b.week_ending⟩

instance : IsTrans Progress weekLE :=
  ⟨fun _ _ _ h1 h2 => le_trans h1 h2⟩

/-- `history_query` (app.py lines 62–67): all progress rows, week ascending. -/
def historyRows (db : DB) : List Progress :=
  List.insertionSort weekLE db.progress

/-- `labels = sorted(list(set(week_ending of history rows)))` (app.py line 71). -/
def chartLabels (db : DB) : List Date :=
  List.insertionSort (· ≤ ·) (db.progress.map (·.week_ending)).dedup

/-- One step of the `chart_datasets` dictionary build (app.py lines 74–80):
append the row's percentages to its workstream's series, creating the entry at
the back on first sight (Python dict insertion order). -/
def seriesAppend (ds : List (String × List ℚ × List ℚ)) (p : Progress) :
    List (String × List ℚ × List ℚ) :=
  match ds with
  | [] => [(p.ws_id, ([p.actual_pct], [p.planned_pct]))]
  | (k, act, plan) :: rest =>
    if k = p.ws_id then (k, act ++ [p.actual_pct], plan ++ [p.planned_pct]) :: rest
    else (k, act, plan) :: seriesAppend rest p

/-- `chart_datasets` (app.py lines 74–80): per-workstream actual/planned
series accumulated over the history rows in week order. -/
def chartDatasets (db : DB) : List (String × List ℚ × List ℚ) :=
  (historyRows db).foldl seriesAppend []

/-- Result row of `bubble_query` in `app.py`. -/
structure BubbleRow where
  name : String
  cr_count : ℕ
  total_cr_cost : ℚ
  schedule_variance : ℚ
  deriving DecidableEq

/-- The `LEFT JOIN change_requests cr ON w.ws_id = cr.ws_id AND
cr.status = 'Approved'` condition of `bubble_query`. -/
def approvedCRs (db : DB) (i : String) : List ChangeRequest :=
  db.change_requests.filter fun c => decide (c.ws_id = i ∧ c.status = "Approved")

/-- `bubble_query` (app.py lines 86–97).  A workstream with `m` latest-week
snapshots and `k` approved change requests contributes `m * k` join rows
(`m` rows with a `NULL` change request when `k = 0`), grouped by `w.ws_id`:
`COUNT(cr.cr_id)` counts the non-`NULL` rows, i.e. `m * k`;
`COALESCE(SUM(cr.cost_impact), 0)` is `m *` the approved cost total (`0` when
`k = 0`); the bare column `p.schedule_variance` is taken from a row of the
group — we take the first latest-week snapshot's (under the at-most-one
snapshot per workstream and week invariant, `m = 1` and all rows agree).
The inner `JOIN progress` drops workstreams with no latest-week snapshot. -/
def bubbleRowOf (db : DB) (w : Workstream) : Option BubbleRow :=
  match latestOf db w.ws_id with
  | [] => none
  | p :: ps =>
    some { name := w.name,
           cr_count := (p :: ps).length * (approvedCRs db w.ws_id).length,
           total_cr_cost :=
             ((p :: ps).length : ℚ) * ((approvedCRs db w.ws_id).map (·.cost_impact)).sum,
           schedule_variance := p.schedule_variance }

/-- `bubble_query`'s grouped rows, one per workstream surviving the join. -/
def bubbleRows (db : DB) : List BubbleRow :=
  db.workstreams.filterMap (bubbleRowOf db)

/-- A Chart.js bubble `{label, x, y, r}` (app.py lines 101–108). -/
structure BubblePoint where
  label : String
  x : ℕ
  y : ℚ
  r : ℚ
  deriving DecidableEq

/-- `bubble_data` (app.py lines 101–108): `x` the change-request count, `y` the
schedule variance, radius the approved cost total scaled by `1 / 10000`. -/
def bubbleData (db : DB) : List BubblePoint :=
  (bubbleRows db).map fun b =>
    { label := b.name, x := b.cr_count, y := b.schedule_variance,
      r := b.total_cr_cost / 10000 }

/-- Well-formedness of a fact set, as guaranteed by the schema and the data
model (§3): `ws_id` is the primary key of `workstreams`, and a workstream has
at most one snapshot per reporting week. -/
def WF (db : DB) : Prop :=
  (db.workstreams.map (·.ws_id)).Nodup ∧
  (db.progress.map fun p => (p.ws_id, p.week_ending)).Nodup

instance (db : DB) : Decidable (WF db) := by
  unfold WF; infer_instance

/-- The workstream has a snapshot at the portfolio's latest week. -/
def hasLatest (db : DB) (w : Workstream) : Prop :=
  ∃ p ∈ db.progress, p.ws_id = w.ws_id ∧ latestWeek db = some p.week_ending

instance (db : DB) (w : Workstream) : Decidable (hasLatest db w) := by
  unfold hasLatest; infer_instance

/-! ### The end-to-end example fact set of the spec (§8) -/

/-- Example workstream `A`: budget 2000. -/
def wsA : Workstream :=
  { ws_id := "A", name := "A", owner := "", budget := 2000, complexity := "Medium" }

/-- Example workstream `B`: budget 2000. -/
def wsB : Workstream :=
  { ws_id := "B", name := "B", owner := "", budget := 2000, complexity := "Medium" }

/-- `A`'s snapshot at week 2024-01-07: planned 50, actual 50, spend 1000
(stored derived fields: variance 0). -/
def snapA : Progress :=
  { week_ending := 20240107, ws_id := "A", planned_pct := 50, actual_pct := 50,
    budget_spent := 1000, schedule_variance := 0, cpi := 1 }

/-- `B`'s snapshot at week 2024-01-07: planned 50, actual 20, spend 1500
(stored derived fields: variance −30). -/
def snapB : Progress :=
  { week_ending := 20240107, ws_id := "B", planned_pct := 50, actual_pct := 20,
    budget_spent := 1500, schedule_variance := -30, cpi := 27 / 100 }

/-- The two-workstream fact set of the spec's end-to-end example. -/
def exampleDB : DB :=
  { workstreams := [wsA, wsB], progress := [snapA, snapB], change_requests := [] }

/-- The empty fact set. -/
def emptyDB : DB :=
  { workstreams := [], progress := [], change_requests := [] }

/-- A fact set whose second workstream has no snapshot at the latest week
(here: no snapshot at all) while the portfolio does have a latest week. -/
def cexDB : DB :=
  { workstreams :=
      [ { ws_id := "W1", name := "W1", owner := "", budget := 100, complexity := "Low" },
        { ws_id := "W2", name := "W2", owner := "", budget := 100, complexity := "Low" } ],
    progress :=
      [ { week_ending := 20240107, ws_id := "W1", planned_pct := 10, actual_pct := 10,
          budget_spent := 5, schedule_variance := 0, cpi := 1 } ],
    change_requests := [] }

/-! ### Metrics Engine (data.generator.py, lines 103–105)

Python's `round(v, 2)` rounds to two decimals; on rationals we model it as
`round (100 * v) / 100` with Mathlib's `round` (half rounds up; Python uses
round-half-to-even on binary floats — the two agree except at exact ties of a
hundredth, and no theorem below depends on a tie). -/

/-- Two-decimal rounding, the `round(v, 2)` applied to every stored metric. -/
def round2 (x : ℚ) : ℚ :=
  (round (100 * x) : ℚ) / 100

/-- `current_actual/100 * budget`, the earned-value numerator of the CPI. -/
def earnedValue (actual_pct budget : ℚ) : ℚ :=
  actual_pct / 100 * budget

/-- `cpi = round((current_actual/100 * budget) / (current_spend + 1), 2)`:
earned value over cumulative spend with the `+ 1` division guard. -/
def cpiOf (earned spend : ℚ) : ℚ :=
  round2 (earned / (spend + 1))

/-! ### Synthetic History Generator (data.generator.py, lines 53–117) -/

/-- `NUM_WEEKS = 24` (data.generator.py line 8). -/
def NUM_WEEKS : ℕ := 24

/-- The three behaviour personas of the generator's actuals branch
(data.generator.py lines 90–98): `WS_002` the failing project, `WS_001` the
good project, everything else average. -/
inductive Persona where
  | atRisk
  | onTrack
  | nominal
  deriving DecidableEq

/-- Which persona the generator gives a workstream id. -/
def personaOf (i : String) : Persona :=
  if i = "WS_002" then .atRisk else if i = "WS_001" then .onTrack else .nominal

/-- The `random.uniform` bounds of the actual-increment multiplier. -/
def fRange : Persona → ℚ × ℚ
  | .atRisk => (3/10, 8/10)
  | .onTrack => (19/20, 21/20)
  | .nominal => (4/5, 1)

/-- The `random.uniform` bounds of the spend-rate multiplier. -/
def gRange : Persona → ℚ × ℚ
  | .atRisk => (11/10, 3/2)
  | _ => (9/10, 11/10)

/-- Membership of a draw in a closed uniform range. -/
def inRange (r : ℚ × ℚ) (x : ℚ) : Prop :=
  r.1 ≤ x ∧ x ≤ r.2

/-- The generator's running per-workstream state
`(current_planned, current_actual, current_spend)`. -/
structure GenState where
  planned : ℚ
  actual : ℚ
  spend : ℚ
  deriving DecidableEq

/-- One week of the progress loop (data.generator.py lines 86–101) given that
week's draws `f` (actual multiplier) and `g` (spend multiplier):
`current_planned = min(100, current_planned + 100/W)`,
`current_actual  = min(100, current_actual + (100/W)*f)`,
`current_spend  += (budget/W)*g`. -/
def genStep (W : ℕ) (b : ℚ) (f g : ℚ) (s : GenState) : GenState :=
  { planned := min 100 (s.planned + 100 / W),
    actual := min 100 (s.actual + 100 / W * f),
    spend := s.spend + b / W * g }

/-- The running state after `k` weeks, starting from `(0, 0, 0)`, with draw
sequences `f g : ℕ → ℚ` standing for the `random.uniform` results. -/
def stateAfter (W : ℕ) (b : ℚ) (f g : ℕ → ℚ) : ℕ → GenState
  | 0 => { planned := 0, actual := 0, spend := 0 }
  | k + 1 => genStep W b (f k) (g k) (stateAfter W b f g k)

/-- The progress record appended for week index `k` (data.generator.py lines
104–111): the running values rounded to two decimals, the variance
`round(current_actual - current_planned, 2)` and the guarded CPI.  The
`week_ending` key is the week index (the source's dates advance by exactly
7 days per index, so index order is date order). -/
def genRow (b : ℚ) (i : String) (k : ℕ) (s : GenState) : Progress :=
  { week_ending := k, ws_id := i,
    planned_pct := round2 s.planned,
    actual_pct := round2 s.actual,
    budget_spent := round2 s.spend,
    schedule_variance := round2 (s.actual - s.planned),
    cpi := cpiOf (earnedValue s.actual b) s.spend }

/-- All `W` snapshots the generator emits for one workstream, in week order. -/
def genRows (W : ℕ) (b : ℚ) (i : String) (f g : ℕ → ℚ) : List Progress :=
  (List.range W).map fun k => genRow b i k (stateAfter W b f g (k + 1))

/-! ### Domain-Model validation (spec §4.1, §7)

The repository's two source files contain no Domain-Model layer: the generator
inserts tuples straight into SQLite and `app.py` reads untyped rows, so the
construction-time validators of §4.1 exist only in the spec.  The two
constructors below are modelled from the spec's words. -/

/-- Modelled from the spec: the `ValidationError` of §4.1/§7 raised for an
out-of-range percentage, a negative cost, or an unknown status value. -/
inductive ValidationError where
  | outOfRangePercentage
  | negativeCost
  | unknownStatus
  deriving DecidableEq

/-- The raw (non-derived) fields of a ProgressSnapshot (§3). -/
structure SnapshotFacts where
  week_ending : Date
  ws_id : String
  planned_pct : ℚ
  actual_pct : ℚ
  budget_spent : ℚ
  deriving DecidableEq

/-- Modelled from the spec: §4.1 construction of a ProgressSnapshot —
missing from src — fails with a `ValidationError` on a percentage outside
`[0, 100]` or a negative cumulative cost, and never clamps. -/
def mkProgressSnapshot (week : Date) (i : String) (planned actual spent : ℚ) :
    Except ValidationError SnapshotFacts :=
  if planned < 0 ∨ 100 < planned then .error .outOfRangePercentage
  else if actual < 0 ∨ 100 < actual then .error .outOfRangePercentage
  else if spent < 0 then .error .negativeCost
  else .ok { week_ending := week, ws_id := i, planned_pct := planned,
             actual_pct := actual, budget_spent := spent }

/-- The legal change-request lifecycle states (§3). -/
def validStatuses : List String :=
  ["Pending", "Approved", "Rejected"]

/-- Modelled from the spec: §4.1 construction of a ChangeRequest — missing
from src — fails with a `ValidationError` on a status outside
`{Pending, Approved, Rejected}` or a negative cost impact, and never clamps. -/
def mkChangeRequest (cid i : String) (d : Date) (t s : String) (cost : ℚ)
    (days : ℤ) : Except ValidationError ChangeRequest :=
  if s ∉ validStatuses then .error .unknownStatus
  else if cost < 0 then .error .negativeCost
  else .ok { cr_id := cid, ws_id := i, date_raised := d, title := t, status := s,
             cost_impact := cost, time_impact_days := days }

/-- C1: on the spec's two-workstream example fact set, the Status Grid returns
the rows in the order [B, A] (B's variance −30 before A's 0) and the KPI
summary's `total_spend` is 2500. -/
theorem c1_example_grid_and_total_spend :
    (statusGrid exampleDB).map (·.ws_id) = ["B", "A"] ∧
    (kpiData exampleDB).total_spend = some 2500 := by
  constructor
  · decide
  · norm_num [kpiData, latestRows, latestWeek, exampleDB, sqlMax, sqlSum,
      snapA, snapB, List.filter]

/-! ### Shape of the latest-week filter under the data-model invariants -/

theorem mem_latestOf {db : DB} {i : String} {p : Progress} (hp : p ∈ latestOf db i) :
    p ∈ db.progress ∧ p.ws_id = i ∧ latestWeek db = some p.week_ending := by
  have h := List.mem_filter.mp hp
  exact ⟨h.1, by simpa using h.2⟩

theorem latestOf_length_le_one (db : DB) (i : String)
    (h : (db.progress.map fun p => (p.ws_id, p.week_ending)).Nodup) :
    (latestOf db i).length ≤ 1 := by
  rcases hfl : latestOf db i with _ | ⟨p1, _ | ⟨p2, rest⟩⟩
  · simp
  · simp
  · exfalso
    have hsub : (latestOf db i).Sublist db.progress := List.filter_sublist _
    have hnd : ((latestOf db i).map fun p => (p.ws_id, p.week_ending)).Nodup :=
      h.sublist (hsub.map _)
    have h1 := @mem_latestOf db i p1
      (by rw [hfl]; exact List.mem_cons_self _ _)
    have h2 := @mem_latestOf db i p2
      (by rw [hfl]; exact List.mem_cons_of_mem _ (List.mem_cons_self _ _))
    rw [hfl] at hnd
    simp only [List.map_cons, List.nodup_cons] at hnd
    apply hnd.1
    have hweek : p1.week_ending = p2.week_ending :=
      Option.some.inj (h1.2.2.symm.trans h2.2.2)
    rw [h1.2.1, h2.2.1, hweek]
    exact List.mem_cons_self _ _

theorem latestOf_eq_singleton {db : DB} {i : String} {p : Progress}
    (h : (db.progress.map fun q => (q.ws_id, q.week_ending)).Nodup)
    (hp : p ∈ db.progress) (hi : p.ws_id = i)
    (hw : latestWeek db = some p.week_ending) :
    latestOf db i = [p] := by
  have hmem : p ∈ latestOf db i := List.mem_filter.mpr ⟨hp, by simp [hi, hw]⟩
  have hlen := latestOf_length_le_one db i h
  rcases hfl : latestOf db i with _ | ⟨q, rest⟩
  · rw [hfl] at hmem; cases hmem
  · rw [hfl] at hmem hlen
    have hrest : rest = [] := by
      cases rest with
      | nil => rfl
      | cons r t => simp at hlen
    subst hrest
    have hpq : p = q := by simpa using hmem
    rw [hpq]

theorem latestOf_eq_nil {db : DB} {w : Workstream} (hl : ¬ hasLatest db w) :
    latestOf db w.ws_id = [] := by
  unfold latestOf
  rw [List.filter_eq_nil_iff]
  intro p hp
  simp only [decide_eq_true_eq, not_and]
  intro hi hwk
  exact hl ⟨p, hp, hi, hwk⟩

/-- Counting the `status_query` join rows of one workstream: with `ws_id` a
primary key, exactly the workstream's own latest-week snapshots survive. -/
theorem statusJoin_countP_aux (db : DB) (w : Workstream) :
    ∀ ws : List Workstream, (ws.map (·.ws_id)).Nodup → w ∈ ws →
      ((ws.flatMap fun v => (latestOf db v.ws_id).map (statusRowOf v)).countP
          fun r => decide (r.ws_id = w.ws_id)) =
        (latestOf db w.ws_id).length := by
  intro ws
  induction ws with
  | nil => intro _ hw; cases hw
  | cons a t ih =>
    intro hnd hw
    simp only [List.map_cons, List.nodup_cons] at hnd
    rw [List.flatMap_cons, List.countP_append]
    rcases List.mem_cons.mp hw with rfl | hw
    · have h1 : (((latestOf db w.ws_id).map (statusRowOf w)).countP
          fun r => decide (r.ws_id = w.ws_id)) = (latestOf db w.ws_id).length := by
        rw [List.countP_map]
        simp [Function.comp, statusRowOf]
      have h2 : ((t.flatMap fun v => (latestOf db v.ws_id).map (statusRowOf v)).countP
          fun r => decide (r.ws_id = w.ws_id)) = 0 := by
        rw [List.countP_eq_zero]
        intro r hr
        rcases List.mem_flatMap.mp hr with ⟨v, hv, hrv⟩
        rcases List.mem_map.mp hrv with ⟨p, _, rfl⟩
        simp only [statusRowOf, decide_eq_true_eq]
        intro hEq
        exact hnd.1 (by rw [← hEq]; exact List.mem_map_of_mem _ hv)
      rw [h1, h2, Nat.add_zero]
    · have hne : a.ws_id ≠ w.ws_id := by
        intro hEq
        exact hnd.1 (by rw [hEq]; exact List.mem_map_of_mem _ hw)
      have h1 : (((latestOf db a.ws_id).map (statusRowOf a)).countP
          fun r => decide (r.ws_id = w.ws_id)) = 0 := by
        rw [List.countP_eq_zero]
        intro r hr
        rcases List.mem_map.mp hr with ⟨p, _, rfl⟩
        simp only [statusRowOf, decide_eq_true_eq]
        exact hne
      rw [h1, ih hnd.2 hw, Nat.zero_add]

/-- C2: on a well-formed fact set the Status Grid has exactly one row for each
workstream with a latest-week snapshot, no row for any other workstream, and
its rows are ordered by non-decreasing `schedule_variance`. -/
theorem c2_status_grid_rows_and_order (db : DB) (h : WF db) :
    (∀ w ∈ db.workstreams,
        ((statusGrid db).countP fun r => decide (r.ws_id = w.ws_id)) =
          if hasLatest db w then 1 else 0) ∧
    List.Sorted varLE (statusGrid db) := by
  constructor
  · intro w hw
    have hperm : List.Perm (statusGrid db) (statusJoin db) :=
      List.perm_insertionSort varLE (statusJoin db)
    rw [hperm.countP_eq]
    unfold statusJoin
    rw [statusJoin_countP_aux db w db.workstreams h.1 hw]
    by_cases hl : hasLatest db w
    · rcases hl with ⟨p, hp, hi, hwk⟩
      rw [latestOf_eq_singleton h.2 hp hi hwk, if_pos ⟨p, hp, hi, hwk⟩]
      rfl
    · rw [latestOf_eq_nil hl, if_neg hl]
      rfl
  · exact List.sorted_insertionSort varLE (statusJoin db)

theorem c2_status_grid_rows_and_order_witness :
    WF exampleDB ∧
    ((∀ w ∈ exampleDB.workstreams,
        ((statusGrid exampleDB).countP fun r => decide (r.ws_id = w.ws_id)) =
          if hasLatest exampleDB w then 1 else 0) ∧
      List.Sorted varLE (statusGrid exampleDB)) :=
  ⟨by decide, c2_status_grid_rows_and_order exampleDB (by decide)⟩

/-! ### The latest-week subquery is the maximum of the week column -/

theorem sqlMax_eq_none_iff (l : List Date) : sqlMax l = none ↔ l = [] := by
  cases l with
  | nil => simp [sqlMax]
  | cons d ds =>
    simp only [sqlMax]
    cases sqlMax ds <;> simp

theorem sqlMax_mem : ∀ {l : List Date} {m : Date}, sqlMax l = some m → m ∈ l := by
  intro l
  induction l with
  | nil => intro m hm; cases hm
  | cons d ds ih =>
    intro m hm
    unfold sqlMax at hm
    cases hds : sqlMax ds with
    | none =>
      rw [hds] at hm
      cases hm
      exact List.mem_cons_self _ _
    | some v =>
      rw [hds] at hm
      cases hm
      rcases max_choice d v with hc | hc
      · rw [hc]; exact List.mem_cons_self _ _
      · rw [hc]; exact List.mem_cons_of_mem _ (ih hds)

theorem le_sqlMax : ∀ {l : List Date} {a m : Date}, a ∈ l → sqlMax l = some m → a ≤ m := by
  intro l
  induction l with
  | nil => intro a m ha; cases ha
  | cons d ds ih =>
    intro a m ha hm
    unfold sqlMax at hm
    cases hds : sqlMax ds with
    | none =>
      rw [hds] at hm
      cases hm
      rcases List.mem_cons.mp ha with rfl | ha
      · exact le_refl _
      · rw [(sqlMax_eq_none_iff ds).mp hds] at ha
        cases ha
    | some v =>
      rw [hds] at hm
      cases hm
      rcases List.mem_cons.mp ha with rfl | ha
      · exact le_max_left _ _
      · exact le_trans (ih ha hds) (le_max_right _ _)

/-- C3: on a non-empty fact set, `total_spend` is the sum of `budget_spent`
over exactly the snapshots whose `week_ending` is the maximal one, and it only
depends on the latest week and the rows at it. -/
theorem c3_total_spend_latest_week_only (db : DB) (h : db.progress ≠ []) :
    ∃ m, latestWeek db = some m ∧
      m ∈ db.progress.map (·.week_ending) ∧
      (∀ p ∈ db.progress, p.week_ending ≤ m) ∧
      (kpiData db).total_spend =
        some (((db.progress.filter fun p => decide (p.week_ending = m)).map
          (·.budget_spent)).sum) ∧
      ∀ db2 : DB, latestWeek db2 = latestWeek db → latestRows db2 = latestRows db →
        (kpiData db2).total_spend = (kpiData db).total_spend := by
  have hmap : db.progress.map (·.week_ending) ≠ [] := by
    simpa using h
  obtain ⟨m, hm⟩ : ∃ m, sqlMax (db.progress.map (·.week_ending)) = some m := by
    cases hsm : sqlMax (db.progress.map (·.week_ending)) with
    | none => exact absurd ((sqlMax_eq_none_iff _).mp hsm) hmap
    | some v => exact ⟨v, rfl⟩
  have hlw : latestWeek db = some m := hm
  refine ⟨m, hlw, sqlMax_mem hm, ?_, ?_, ?_⟩
  · intro p hp
    exact le_sqlMax (List.mem_map_of_mem _ hp) hm
  · have hfeq : latestRows db = db.progress.filter fun p => decide (p.week_ending = m) := by
      unfold latestRows
      apply List.filter_congr
      intro p hp
      rw [hlw]
      simp [eq_comm]
    obtain ⟨q, hq, hqm⟩ : ∃ q, q ∈ db.progress ∧ q.week_ending = m := by
      rcases List.mem_map.mp (sqlMax_mem hm) with ⟨q, hq, hqm⟩
      exact ⟨q, hq, hqm⟩
    have hqf : q ∈ db.progress.filter fun p => decide (p.week_ending = m) :=
      List.mem_filter.mpr ⟨hq, by simp [hqm]⟩
    show sqlSum ((latestRows db).map (·.budget_spent)) = _
    rw [hfeq]
    cases hfl : db.progress.filter fun p => decide (p.week_ending = m) with
    | nil => rw [hfl] at hqf; cases hqf
    | cons a t => simp [sqlSum]
  · intro db2 h1 h2
    show sqlSum ((latestRows db2).map (·.budget_spent)) =
      sqlSum ((latestRows db).map (·.budget_spent))
    rw [h2]

theorem c3_total_spend_latest_week_only_witness :
    exampleDB.progress ≠ [] ∧
    (∃ m, latestWeek exampleDB = some m ∧
      m ∈ exampleDB.progress.map (·.week_ending) ∧
      (∀ p ∈ exampleDB.progress, p.week_ending ≤ m) ∧
      (kpiData exampleDB).total_spend =
        some (((exampleDB.progress.filter fun p => decide (p.week_ending = m)).map
          (·.budget_spent)).sum) ∧
      ∀ db2 : DB, latestWeek db2 = latestWeek exampleDB →
        latestRows db2 = latestRows exampleDB →
        (kpiData db2).total_spend = (kpiData exampleDB).total_spend) :=
  ⟨by decide, c3_total_spend_latest_week_only exampleDB (by decide)⟩

/-! ### Empty fact set -/

/-- C8: on the empty fact set the aggregation is total (all four views are
plain Lean functions, so no exception can arise) and returns `NULL`/zero KPI
aggregates, an empty status grid, empty chart labels and series, and an empty
bubble list. -/
theorem c8_empty_fact_set :
    kpiData emptyDB = { total_spend := none, avg_cpi := none, active_risks := 0 } ∧
    statusGrid emptyDB = [] ∧
    chartLabels emptyDB = [] ∧
    chartDatasets emptyDB = [] ∧
    bubbleData emptyDB = [] :=
  ⟨rfl, rfl, rfl, rfl, rfl⟩

/-! ### Risk-bubble view -/

/-- C4 as stated is false: the bubble query's inner `JOIN progress` drops any
workstream without a latest-week snapshot.  In `cexDB`, workstream `W2` is in
the fact set but gets no bubble entry (the view has 1 entry for 2 workstreams). -/
theorem c4_counterexample :
    (∃ w ∈ cexDB.workstreams, ∀ e ∈ bubbleData cexDB, e.label ≠ w.name) ∧
    (bubbleData cexDB).length = 1 ∧ cexDB.workstreams.length = 2 := by
  refine ⟨?_, by decide, by decide⟩
  refine ⟨{ ws_id := "W2", name := "W2", owner := "", budget := 100,
            complexity := "Low" }, by decide, by decide⟩

theorem bubbleRowOf_isSome_eq (db : DB) (w : Workstream) :
    (bubbleRowOf db w).isSome = decide (hasLatest db w) := by
  unfold bubbleRowOf
  cases hfl : latestOf db w.ws_id with
  | nil =>
    have : ¬ hasLatest db w := by
      intro hl
      rcases hl with ⟨p, hp, hi, hwk⟩
      have hmem : p ∈ latestOf db w.ws_id :=
        List.mem_filter.mpr ⟨hp, by simp [hi, hwk]⟩
      rw [hfl] at hmem
      cases hmem
    simp [this]
  | cons p ps =>
    have hmem : p ∈ latestOf db w.ws_id := by
      rw [hfl]; exact List.mem_cons_self _ _
    have h := mem_latestOf hmem
    simp [hasLatest]
    exact ⟨p, h.1, h.2.1, h.2.2⟩

theorem length_filterMap_eq_countP {α β : Type} (f : α → Option β) :
    ∀ l : List α, (l.filterMap f).length = l.countP fun a => (f a).isSome := by
  intro l
  induction l with
  | nil => simp
  | cons a t ih =>
    cases hfa : f a with
    | none => simp [List.filterMap_cons, hfa, List.countP_cons, ih]
    | some b => simp [List.filterMap_cons, hfa, List.countP_cons, ih]

/-- C4 amended: one bubble entry per workstream **with a latest-week
snapshot** (the inner `JOIN progress` excludes the rest); each such entry
counts and sums only that workstream's Approved change requests (0 and 0.0
when there are none — the workstream still gets an entry), takes the
schedule variance from the latest-week snapshot, and has radius
`total_cr_cost / 10000`. -/
theorem c4_amended_bubble_view (db : DB) (h : WF db) :
    (bubbleData db).length = db.workstreams.countP (fun w => decide (hasLatest db w)) ∧
    ∀ w ∈ db.workstreams, ∀ p ∈ db.progress, p.ws_id = w.ws_id →
      latestWeek db = some p.week_ending →
      ∃ e ∈ bubbleData db, e.label = w.name ∧
        e.x = (approvedCRs db w.ws_id).length ∧
        e.y = p.schedule_variance ∧
        e.r = ((approvedCRs db w.ws_id).map (·.cost_impact)).sum / 10000 := by
  constructor
  · show (List.map _ (bubbleRows db)).length = _
    rw [List.length_map]
    unfold bubbleRows
    rw [length_filterMap_eq_countP]
    apply List.countP_congr
    intro w _
    rw [bubbleRowOf_isSome_eq db w]
  · intro w hw p hp hi hwk
    have hsingle : latestOf db w.ws_id = [p] := latestOf_eq_singleton h.2 hp hi hwk
    have hrow : bubbleRowOf db w =
        some { name := w.name,
               cr_count := 1 * (approvedCRs db w.ws_id).length,
               total_cr_cost :=
                 ((1 : ℕ) : ℚ) * ((approvedCRs db w.ws_id).map (·.cost_impact)).sum,
               schedule_variance := p.schedule_variance } := by
      unfold bubbleRowOf
      rw [hsingle]
      rfl
    have hmem : { name := w.name,
                  cr_count := 1 * (approvedCRs db w.ws_id).length,
                  total_cr_cost :=
                    ((1 : ℕ) : ℚ) * ((approvedCRs db w.ws_id).map (·.cost_impact)).sum,
                  schedule_variance := p.schedule_variance } ∈ bubbleRows db :=
      List.mem_filterMap.mpr ⟨w, hw, hrow⟩
    refine ⟨_, List.mem_map_of_mem _ hmem, rfl, Nat.one_mul _, rfl, ?_⟩
    show (((1 : ℕ) : ℚ) * ((approvedCRs db w.ws_id).map (·.cost_impact)).sum) / 10000 = _
    rw [Nat.cast_one, one_mul]

theorem c4_amended_bubble_view_witness :
    WF exampleDB ∧
    (((bubbleData exampleDB).length =
        exampleDB.workstreams.countP (fun w => decide (hasLatest exampleDB w))) ∧
      ∀ w ∈ exampleDB.workstreams, ∀ p ∈ exampleDB.progress, p.ws_id = w.ws_id →
        latestWeek exampleDB = some p.week_ending →
        ∃ e ∈ bubbleData exampleDB, e.label = w.name ∧
          e.x = (approvedCRs exampleDB w.ws_id).length ∧
          e.y = p.schedule_variance ∧
          e.r = ((approvedCRs exampleDB w.ws_id).map (·.cost_impact)).sum / 10000) :=
  ⟨by decide, c4_amended_bubble_view exampleDB (by decide)⟩

/-! ### Two-decimal rounding -/

theorem round2_mono {x y : ℚ} (h : x ≤ y) : round2 x ≤ round2 y := by
  unfold round2
  have hr : round (100 * x) ≤ round (100 * y) := by
    rw [round_eq, round_eq]
    exact Int.floor_mono (by linarith)
  have hc : ((round (100 * x) : ℚ)) ≤ ((round (100 * y) : ℚ)) := by exact_mod_cast hr
  linarith

theorem round2_intCast (n : ℤ) : round2 ((n : ℚ)) = (n : ℚ) := by
  unfold round2
  rw [show (100 : ℚ) * (n : ℚ) = ((100 * n : ℤ) : ℚ) by push_cast; ring, round_intCast]
  push_cast
  rw [mul_comm, mul_div_assoc]
  norm_num

theorem round2_zero : round2 0 = 0 := by
  have h := round2_intCast 0
  simpa using h

theorem round2_nonneg {x : ℚ} (h : 0 ≤ x) : 0 ≤ round2 x :=
  round2_zero ▸ round2_mono h

theorem round2_hundred : round2 (100 : ℚ) = 100 := by
  have h := round2_intCast 100
  norm_num at h
  exact h

theorem round2_le_hundred {x : ℚ} (h : x ≤ 100) : round2 x ≤ 100 :=
  round2_hundred ▸ round2_mono h

theorem round2_lt_one {x : ℚ} (h : x < 199 / 200) : round2 x < 1 := by
  unfold round2
  have hf : round (100 * x) < 100 := by
    rw [round_eq]
    have h2 : (100 : ℚ) * x + 1 / 2 < 100 := by linarith
    exact Int.floor_lt.mpr (by push_cast; linarith)
  have hc : ((round (100 * x) : ℚ)) < 100 := by exact_mod_cast hf
  rw [div_lt_one (by norm_num : (0:ℚ) < 100)]
  exact hc

/-! ### CPI guard -/

/-- C5: the CPI divides earned value by `cumulative_spend + 1` with the fixed
guard `ε = 1 > 0`, so for non-negative inputs the denominator is strictly
positive (no division by zero, including at zero spend) and the resulting
CPI — a rational, hence finite — is non-negative. -/
theorem c5_cpi_division_guard (earned spend : ℚ) (he : 0 ≤ earned) (hs : 0 ≤ spend) :
    0 < spend + 1 ∧ 0 ≤ cpiOf earned spend := by
  have hpos : 0 < spend + 1 := by linarith
  refine ⟨hpos, ?_⟩
  unfold cpiOf
  exact round2_nonneg (div_nonneg he (le_of_lt hpos))

theorem c5_cpi_division_guard_witness :
    (0 ≤ (0:ℚ)) ∧ (0 ≤ (0:ℚ)) ∧ (0 < (0:ℚ) + 1 ∧ 0 ≤ cpiOf 0 0) :=
  ⟨le_refl 0, le_refl 0, c5_cpi_division_guard 0 0 (le_refl 0) (le_refl 0)⟩

/-! ### Running-state invariants of the generator loop -/

theorem fRange_lo_nonneg (P : Persona) : 0 ≤ (fRange P).1 := by
  cases P <;> norm_num [fRange]

theorem gRange_lo_nonneg (P : Persona) : 0 ≤ (gRange P).1 := by
  cases P <;> norm_num [gRange]

theorem stateAfter_bounds (W : ℕ) (b : ℚ) (f g : ℕ → ℚ)
    (hb : 0 ≤ b) (hf : ∀ k, 0 ≤ f k) (hg : ∀ k, 0 ≤ g k) (k : ℕ) :
    0 ≤ (stateAfter W b f g k).planned ∧ (stateAfter W b f g k).planned ≤ 100 ∧
    0 ≤ (stateAfter W b f g k).actual ∧ (stateAfter W b f g k).actual ≤ 100 ∧
    0 ≤ (stateAfter W b f g k).spend := by
  induction k with
  | zero => norm_num [stateAfter]
  | succ k ih =>
    obtain ⟨h1, h2, h3, h4, h5⟩ := ih
    have hW : (0:ℚ) ≤ (W:ℚ) := Nat.cast_nonneg W
    have hinc : (0:ℚ) ≤ 100 / (W:ℚ) := div_nonneg (by norm_num) hW
    have hact : 0 ≤ 100 / (W:ℚ) * f k := mul_nonneg hinc (hf k)
    have hsp : 0 ≤ b / (W:ℚ) * g k := mul_nonneg (div_nonneg hb hW) (hg k)
    simp only [stateAfter, genStep]
    refine ⟨le_min (by norm_num) (by linarith), min_le_left _ _,
      le_min (by norm_num) (by linarith), min_le_left _ _, by linarith⟩

theorem stateAfter_le_succ (W : ℕ) (b : ℚ) (f g : ℕ → ℚ)
    (hb : 0 ≤ b) (hf : ∀ k, 0 ≤ f k) (hg : ∀ k, 0 ≤ g k) (k : ℕ) :
    (stateAfter W b f g k).planned ≤ (stateAfter W b f g (k + 1)).planned ∧
    (stateAfter W b f g k).actual ≤ (stateAfter W b f g (k + 1)).actual ∧
    (stateAfter W b f g k).spend ≤ (stateAfter W b f g (k + 1)).spend := by
  obtain ⟨h1, h2, h3, h4, h5⟩ := stateAfter_bounds W b f g hb hf hg k
  have hW : (0:ℚ) ≤ (W:ℚ) := Nat.cast_nonneg W
  have hinc : (0:ℚ) ≤ 100 / (W:ℚ) := div_nonneg (by norm_num) hW
  have hact : 0 ≤ 100 / (W:ℚ) * f k := mul_nonneg hinc (hf k)
  have hsp : 0 ≤ b / (W:ℚ) * g k := mul_nonneg (div_nonneg hb hW) (hg k)
  simp only [stateAfter, genStep]
  exact ⟨le_min h2 (by linarith), le_min h4 (by linarith), by linarith⟩

theorem stateAfter_mono (W : ℕ) (b : ℚ) (f g : ℕ → ℚ)
    (hb : 0 ≤ b) (hf : ∀ k, 0 ≤ f k) (hg : ∀ k, 0 ≤ g k)
    {k1 k2 : ℕ} (hk : k1 ≤ k2) :
    (stateAfter W b f g k1).planned ≤ (stateAfter W b f g k2).planned ∧
    (stateAfter W b f g k1).actual ≤ (stateAfter W b f g k2).actual ∧
    (stateAfter W b f g k1).spend ≤ (stateAfter W b f g k2).spend := by
  induction hk with
  | refl => exact ⟨le_refl _, le_refl _, le_refl _⟩
  | step h ih =>
    obtain ⟨i1, i2, i3⟩ := ih
    obtain ⟨s1, s2, s3⟩ := stateAfter_le_succ W b f g hb hf hg _
    exact ⟨le_trans i1 s1, le_trans i2 s2, le_trans i3 s3⟩

/-- C6: with every draw inside its persona range, every emitted snapshot has
`planned_pct`, `actual_pct` in `[0, 100]` and `budget_spent ≥ 0`, and across
the week-ordered snapshots both `planned_pct` and `budget_spent` are
non-decreasing. -/
theorem c6_generated_snapshot_invariants (P : Persona) (W : ℕ) (b : ℚ)
    (i : String) (f g : ℕ → ℚ) (hb : 0 ≤ b)
    (hf : ∀ k, inRange (fRange P) (f k)) (hg : ∀ k, inRange (gRange P) (g k)) :
    (∀ r ∈ genRows W b i f g,
        0 ≤ r.planned_pct ∧ r.planned_pct ≤ 100 ∧
        0 ≤ r.actual_pct ∧ r.actual_pct ≤ 100 ∧ 0 ≤ r.budget_spent) ∧
    (∀ k1 k2 : ℕ, ∀ hk1 : k1 < (genRows W b i f g).length,
      ∀ hk2 : k2 < (genRows W b i f g).length, k1 ≤ k2 →
        ((genRows W b i f g).get ⟨k1, hk1⟩).planned_pct ≤
          ((genRows W b i f g).get ⟨k2, hk2⟩).planned_pct ∧
        ((genRows W b i f g).get ⟨k1, hk1⟩).budget_spent ≤
          ((genRows W b i f g).get ⟨k2, hk2⟩).budget_spent) := by
  have hfnn : ∀ k, 0 ≤ f k := fun k => le_trans (fRange_lo_nonneg P) (hf k).1
  have hgnn : ∀ k, 0 ≤ g k := fun k => le_trans (gRange_lo_nonneg P) (hg k).1
  constructor
  · intro r hr
    unfold genRows at hr
    rcases List.mem_map.mp hr with ⟨k, _, rfl⟩
    obtain ⟨h1, h2, h3, h4, h5⟩ := stateAfter_bounds W b f g hb hfnn hgnn (k + 1)
    exact ⟨round2_nonneg h1, round2_le_hundred h2, round2_nonneg h3,
      round2_le_hundred h4, round2_nonneg h5⟩
  · intro k1 k2 hk1 hk2 hk
    have e1 : (genRows W b i f g).get ⟨k1, hk1⟩ =
        genRow b i k1 (stateAfter W b f g (k1 + 1)) := by
      simp [genRows, List.get_eq_getElem, List.getElem_map, List.getElem_range]
    have e2 : (genRows W b i f g).get ⟨k2, hk2⟩ =
        genRow b i k2 (stateAfter W b f g (k2 + 1)) := by
      simp [genRows, List.get_eq_getElem, List.getElem_map, List.getElem_range]
    rw [e1, e2]
    obtain ⟨hp, ha, hs⟩ :=
      stateAfter_mono W b f g hb hfnn hgnn (Nat.succ_le_succ hk)
    exact ⟨round2_mono hp, round2_mono hs⟩

theorem c6_generated_snapshot_invariants_witness :
    (0 ≤ (100:ℚ)) ∧
    (∀ k : ℕ, inRange (fRange .nominal) ((fun _ => (1:ℚ)) k)) ∧
    (∀ k : ℕ, inRange (gRange .nominal) ((fun _ => (1:ℚ)) k)) ∧
    ((∀ r ∈ genRows 24 100 "WS_003" (fun _ => (1:ℚ)) (fun _ => (1:ℚ)),
        0 ≤ r.planned_pct ∧ r.planned_pct ≤ 100 ∧
        0 ≤ r.actual_pct ∧ r.actual_pct ≤ 100 ∧ 0 ≤ r.budget_spent) ∧
      (∀ k1 k2 : ℕ,
        ∀ hk1 : k1 < (genRows 24 100 "WS_003" (fun _ => (1:ℚ)) (fun _ => (1:ℚ))).length,
        ∀ hk2 : k2 < (genRows 24 100 "WS_003" (fun _ => (1:ℚ)) (fun _ => (1:ℚ))).length,
        k1 ≤ k2 →
          ((genRows 24 100 "WS_003" (fun _ => (1:ℚ)) (fun _ => (1:ℚ))).get
              ⟨k1, hk1⟩).planned_pct ≤
            ((genRows 24 100 "WS_003" (fun _ => (1:ℚ)) (fun _ => (1:ℚ))).get
              ⟨k2, hk2⟩).planned_pct ∧
          ((genRows 24 100 "WS_003" (fun _ => (1:ℚ)) (fun _ => (1:ℚ))).get
              ⟨k1, hk1⟩).budget_spent ≤
            ((genRows 24 100 "WS_003" (fun _ => (1:ℚ)) (fun _ => (1:ℚ))).get
              ⟨k2, hk2⟩).budget_spent)) :=
  ⟨by norm_num,
   fun k => by norm_num [inRange, fRange],
   fun k => by norm_num [inRange, gRange],
   c6_generated_snapshot_invariants .nominal 24 100 "WS_003" _ _ (by norm_num)
     (fun k => by norm_num [inRange, fRange])
     (fun k => by norm_num [inRange, gRange])⟩

/-! ### Non-on-track personas never get ahead of plan -/

theorem fRange_hi_le_one {P : Persona} (hP : P ≠ Persona.onTrack) :
    (fRange P).2 ≤ 1 := by
  cases P with
  | atRisk => norm_num [fRange]
  | onTrack => exact absurd rfl hP
  | nominal => norm_num [fRange]

theorem stateAfter_actual_le_planned (W : ℕ) (b : ℚ) (f g : ℕ → ℚ)
    (hf1 : ∀ k, f k ≤ 1) (k : ℕ) :
    (stateAfter W b f g k).actual ≤ (stateAfter W b f g k).planned := by
  induction k with
  | zero => exact le_refl _
  | succ k ih =>
    have hW : (0:ℚ) ≤ (W:ℚ) := Nat.cast_nonneg W
    have hinc : (0:ℚ) ≤ 100 / (W:ℚ) := div_nonneg (by norm_num) hW
    have hmul : 100 / (W:ℚ) * f k ≤ 100 / (W:ℚ) := by
      calc 100 / (W:ℚ) * f k ≤ 100 / (W:ℚ) * 1 :=
            mul_le_mul_of_nonneg_left (hf1 k) hinc
        _ = 100 / (W:ℚ) := mul_one _
    simp only [stateAfter, genStep]
    exact min_le_min (le_refl _) (by linarith)

/-- C10: under the nominal and at-risk personas (actual multiplier bounded by
1) every emitted snapshot — not only the terminal one — has
`actual_pct ≤ planned_pct` and `schedule_variance ≤ 0`; a positive variance
can only come from the on-track persona. -/
theorem c10_non_ontrack_behind_plan (P : Persona) (hP : P ≠ Persona.onTrack)
    (W : ℕ) (b : ℚ) (i : String) (f g : ℕ → ℚ)
    (hf : ∀ k, inRange (fRange P) (f k)) :
    ∀ r ∈ genRows W b i f g,
      r.actual_pct ≤ r.planned_pct ∧ r.schedule_variance ≤ 0 := by
  have hf1 : ∀ k, f k ≤ 1 := fun k => le_trans (hf k).2 (fRange_hi_le_one hP)
  intro r hr
  unfold genRows at hr
  rcases List.mem_map.mp hr with ⟨k, _, rfl⟩
  have hle := stateAfter_actual_le_planned W b f g hf1 (k + 1)
  refine ⟨round2_mono hle, ?_⟩
  have hdiff : (stateAfter W b f g (k + 1)).actual -
      (stateAfter W b f g (k + 1)).planned ≤ 0 := by linarith
  calc round2 ((stateAfter W b f g (k + 1)).actual -
        (stateAfter W b f g (k + 1)).planned) ≤ round2 0 := round2_mono hdiff
    _ = 0 := round2_zero

theorem c10_non_ontrack_behind_plan_witness :
    (Persona.atRisk ≠ Persona.onTrack) ∧
    (∀ k : ℕ, inRange (fRange .atRisk) ((fun _ => (1:ℚ)/2) k)) ∧
    ∀ r ∈ genRows 24 100 "WS_002" (fun _ => (1:ℚ)/2) (fun _ => (6:ℚ)/5),
      r.actual_pct ≤ r.planned_pct ∧ r.schedule_variance ≤ 0 :=
  ⟨by decide,
   fun k => by norm_num [inRange, fRange],
   c10_non_ontrack_behind_plan .atRisk (by decide) 24 100 "WS_002" _ _
     (fun k => by norm_num [inRange, fRange])⟩

/-! ### Terminal-week behaviour of the personas over the 24-week window -/

theorem stateAfter24_planned (b : ℚ) (f g : ℕ → ℚ) :
    ∀ k, k ≤ 24 → (stateAfter 24 b f g k).planned = (k : ℚ) * (100 / 24) := by
  intro k
  induction k with
  | zero => intro _; simp [stateAfter]
  | succ k ih =>
    intro hk
    have hk24 : k ≤ 24 := Nat.le_of_succ_le hk
    have hcast : ((k:ℚ) + 1) ≤ 24 := by exact_mod_cast hk
    have e1 : ((k + 1 : ℕ) : ℚ) = (k:ℚ) + 1 := by push_cast; ring
    have hcast24 : ((24:ℕ):ℚ) = (24:ℚ) := by norm_num
    simp only [stateAfter, genStep, ih hk24, e1, hcast24]
    have ex : (k:ℚ) * (100 / 24) + 100 / 24 = ((k:ℚ) + 1) * (100 / 24) := by ring
    rw [ex, min_eq_right]
    nlinarith

theorem stateAfter24_actual_le (b : ℚ) (f g : ℕ → ℚ) (hf : ∀ k, f k ≤ 8 / 10) :
    ∀ k, (stateAfter 24 b f g k).actual ≤ (k : ℚ) * (100 / 24 * (8 / 10)) := by
  intro k
  induction k with
  | zero => simp [stateAfter]
  | succ k ih =>
    have hmul : 100 / (24:ℚ) * f k ≤ 100 / 24 * (8 / 10) :=
      mul_le_mul_of_nonneg_left (hf k) (by norm_num)
    have e1 : ((k + 1 : ℕ) : ℚ) = (k:ℚ) + 1 := by push_cast; ring
    have e2 : ((k:ℚ) + 1) * (100 / 24 * (8 / 10)) =
        (k:ℚ) * (100 / 24 * (8 / 10)) + 100 / 24 * (8 / 10) := by ring
    simp only [stateAfter, genStep, e1]
    apply le_trans (min_le_right _ _)
    have hcast : ((24:ℕ):ℚ) = (24:ℚ) := by norm_num
    rw [e2]
    have : 100 / ((24:ℕ):ℚ) * f k ≤ 100 / 24 * (8 / 10) := by rw [hcast]; exact hmul
    linarith

theorem stateAfter24_spend_ge (b : ℚ) (hb : 0 ≤ b) (f g : ℕ → ℚ)
    (hg : ∀ k, 11 / 10 ≤ g k) :
    ∀ k : ℕ, (k : ℚ) * (b / 24 * (11 / 10)) ≤ (stateAfter 24 b f g k).spend := by
  intro k
  induction k with
  | zero => simp [stateAfter]
  | succ k ih =>
    have hb24 : (0:ℚ) ≤ b / ((24:ℕ):ℚ) := div_nonneg hb (by norm_num)
    have hmul : b / ((24:ℕ):ℚ) * (11 / 10) ≤ b / ((24:ℕ):ℚ) * g k :=
      mul_le_mul_of_nonneg_left (hg k) hb24
    have e1 : ((k + 1 : ℕ) : ℚ) = (k:ℚ) + 1 := by push_cast; ring
    have hcast : ((24:ℕ):ℚ) = (24:ℚ) := by norm_num
    have e2 : ((k:ℚ) + 1) * (b / 24 * (11 / 10)) =
        (k:ℚ) * (b / 24 * (11 / 10)) + b / 24 * (11 / 10) := by ring
    simp only [stateAfter, genStep, e1]
    rw [e2]
    rw [hcast] at hmul
    linarith

theorem stateAfter24_actual_ge (b : ℚ) (f g : ℕ → ℚ) (hf : ∀ k, 19 / 20 ≤ f k) :
    ∀ k : ℕ, k ≤ 24 →
      (k : ℚ) * (100 / 24 * (19 / 20)) ≤ (stateAfter 24 b f g k).actual := by
  intro k
  induction k with
  | zero => intro _; simp [stateAfter]
  | succ k ih =>
    intro hk
    have hk24 : k ≤ 24 := Nat.le_of_succ_le hk
    have hcast : ((k:ℚ) + 1) ≤ 24 := by exact_mod_cast hk
    have hcast24 : ((24:ℕ):ℚ) = (24:ℚ) := by norm_num
    have hmul : 100 / (24:ℚ) * (19 / 20) ≤ 100 / 24 * f k :=
      mul_le_mul_of_nonneg_left (hf k) (by norm_num)
    have e1 : ((k + 1 : ℕ) : ℚ) = (k:ℚ) + 1 := by push_cast; ring
    have e2 : ((k:ℚ) + 1) * (100 / 24 * (19 / 20)) =
        (k:ℚ) * (100 / 24 * (19 / 20)) + 100 / 24 * (19 / 20) := by ring
    simp only [stateAfter, genStep, e1]
    apply le_min
    · nlinarith
    · rw [e2]
      rw [hcast24]
      have := ih hk24
      linarith

/-- C7: over the 24-week window, every at-risk draw sequence ends with the
terminal snapshot strictly behind plan (`actual_pct < planned_pct`, negative
stored variance) and a terminal CPI strictly below 1, while every on-track
draw sequence ends with the terminal stored variance within 5 points of 0. -/
theorem c7_persona_terminal_behaviour :
    (∀ (b : ℚ) (i : String) (f g : ℕ → ℚ), 0 ≤ b →
      (∀ k, inRange (fRange .atRisk) (f k)) →
      (∀ k, inRange (gRange .atRisk) (g k)) →
      ∀ r ∈ genRows NUM_WEEKS b i f g, r.week_ending = NUM_WEEKS - 1 →
        r.actual_pct < r.planned_pct ∧ r.schedule_variance < 0 ∧ r.cpi < 1) ∧
    (∀ (b : ℚ) (i : String) (f g : ℕ → ℚ), 0 ≤ b →
      (∀ k, inRange (fRange .onTrack) (f k)) →
      (∀ k, inRange (gRange .onTrack) (g k)) →
      ∀ r ∈ genRows NUM_WEEKS b i f g, r.week_ending = NUM_WEEKS - 1 →
        -5 ≤ r.schedule_variance ∧ r.schedule_variance ≤ 5) := by
  constructor
  · intro b i f g hb hf hg r hr hw
    have hf8 : ∀ j, f j ≤ 8 / 10 := fun j => by
      have h := (hf j).2; norm_num [fRange] at h; linarith
    have hfnn : ∀ j, 0 ≤ f j := fun j => by
      have h := (hf j).1; norm_num [fRange] at h; linarith
    have hg11 : ∀ j, 11 / 10 ≤ g j := fun j => by
      have h := (hg j).1; norm_num [gRange] at h; exact h
    have hgnn : ∀ j, 0 ≤ g j := fun j => le_trans (by norm_num) (hg11 j)
    simp only [NUM_WEEKS] at hr hw
    unfold genRows at hr
    rcases List.mem_map.mp hr with ⟨k, hkmem, rfl⟩
    norm_num [genRow] at hw
    subst hw
    simp only [show (23 + 1 : ℕ) = 24 from rfl]
    obtain ⟨hbnd1, hbnd2, hbnd3, hbnd4, hbnd5⟩ :=
      stateAfter_bounds 24 b f g hb hfnn hgnn 24
    have hplan : (stateAfter 24 b f g 24).planned = 100 := by
      have h := stateAfter24_planned b f g 24 (le_refl _)
      rw [h]; norm_num
    have hact : (stateAfter 24 b f g 24).actual ≤ 80 := by
      have h := stateAfter24_actual_le b f g hf8 24
      norm_num at h
      exact h
    have hsp : 11 / 10 * b ≤ (stateAfter 24 b f g 24).spend := by
      have h := stateAfter24_spend_ge b hb f g hg11 24
      have e : ((24:ℕ) : ℚ) * (b / 24 * (11 / 10)) = 11 / 10 * b := by
        push_cast; ring
      rw [e] at h
      exact h
    simp only [genRow]
    refine ⟨?_, ?_, ?_⟩
    · have e80 : round2 (80:ℚ) = 80 := by
        have h2 := round2_intCast 80; norm_num at h2; exact h2
      have h80 : round2 (stateAfter 24 b f g 24).actual ≤ 80 := by
        calc round2 (stateAfter 24 b f g 24).actual ≤ round2 (80:ℚ) :=
              round2_mono hact
          _ = 80 := e80
      rw [hplan, round2_hundred]
      linarith
    · have hd : (stateAfter 24 b f g 24).actual -
          (stateAfter 24 b f g 24).planned ≤ -20 := by
        rw [hplan]; linarith
      have e20 : round2 (-20:ℚ) = -20 := by
        have h2 := round2_intCast (-20); push_cast at h2; exact h2
      calc round2 ((stateAfter 24 b f g 24).actual -
            (stateAfter 24 b f g 24).planned) ≤ round2 (-20:ℚ) := round2_mono hd
        _ = -20 := e20
        _ < 0 := by norm_num
    · have hden : (0:ℚ) < 11 / 10 * b + 1 := by linarith
      have hden2 : 11 / 10 * b + 1 ≤ (stateAfter 24 b f g 24).spend + 1 := by
        linarith
      have hnum_nn : (0:ℚ) ≤ 4 / 5 * b := by linarith
      have hnum : (stateAfter 24 b f g 24).actual / 100 * b ≤ 4 / 5 * b := by
        have hq : (stateAfter 24 b f g 24).actual / 100 ≤ 4 / 5 := by linarith
        exact mul_le_mul_of_nonneg_right hq hb
      have hfrac : (stateAfter 24 b f g 24).actual / 100 * b /
            ((stateAfter 24 b f g 24).spend + 1) ≤
          (4 / 5 * b) / (11 / 10 * b + 1) :=
        div_le_div₀ hnum_nn hnum hden hden2
      have hbound : (4 / 5 * b) / (11 / 10 * b + 1) < 199 / 200 := by
        rw [div_lt_iff₀ hden]
        linarith
      unfold cpiOf earnedValue
      exact round2_lt_one (lt_of_le_of_lt hfrac hbound)
  · intro b i f g hb hf hg r hr hw
    have hf19 : ∀ j, 19 / 20 ≤ f j := fun j => by
      have h := (hf j).1; norm_num [fRange] at h; exact h
    have hfnn : ∀ j, 0 ≤ f j := fun j => le_trans (by norm_num) (hf19 j)
    have hgnn : ∀ j, 0 ≤ g j := fun j => by
      have h := (hg j).1; norm_num [gRange] at h; linarith
    simp only [NUM_WEEKS] at hr hw
    unfold genRows at hr
    rcases List.mem_map.mp hr with ⟨k, hkmem, rfl⟩
    norm_num [genRow] at hw
    subst hw
    simp only [show (23 + 1 : ℕ) = 24 from rfl]
    obtain ⟨hbnd1, hbnd2, hbnd3, hbnd4, hbnd5⟩ :=
      stateAfter_bounds 24 b f g hb hfnn hgnn 24
    have hplan : (stateAfter 24 b f g 24).planned = 100 := by
      have h := stateAfter24_planned b f g 24 (le_refl _)
      rw [h]; norm_num
    have hge : (95:ℚ) ≤ (stateAfter 24 b f g 24).actual := by
      have h := stateAfter24_actual_ge b f g hf19 24 (le_refl _)
      norm_num at h
      exact h
    simp only [genRow]
    constructor
    · have hd : (-5:ℚ) ≤ (stateAfter 24 b f g 24).actual -
          (stateAfter 24 b f g 24).planned := by
        rw [hplan]; linarith
      have e5 : round2 (-5:ℚ) = -5 := by
        have h2 := round2_intCast (-5); push_cast at h2; exact h2
      calc (-5:ℚ) = round2 (-5:ℚ) := e5.symm
        _ ≤ round2 ((stateAfter 24 b f g 24).actual -
              (stateAfter 24 b f g 24).planned) := round2_mono hd
    · have hd : (stateAfter 24 b f g 24).actual -
          (stateAfter 24 b f g 24).planned ≤ 0 := by
        rw [hplan]; linarith
      calc round2 ((stateAfter 24 b f g 24).actual -
            (stateAfter 24 b f g 24).planned) ≤ round2 0 := round2_mono hd
        _ = 0 := round2_zero
        _ ≤ 5 := by norm_num

theorem c7_persona_terminal_behaviour_witness :
    ((0 ≤ (0:ℚ)) ∧
      (∀ k : ℕ, inRange (fRange .atRisk) ((fun _ => (1:ℚ)/2) k)) ∧
      (∀ k : ℕ, inRange (gRange .atRisk) ((fun _ => (6:ℚ)/5) k)) ∧
      ∀ r ∈ genRows NUM_WEEKS 0 "WS_002" (fun _ => (1:ℚ)/2) (fun _ => (6:ℚ)/5),
        r.week_ending = NUM_WEEKS - 1 →
        r.actual_pct < r.planned_pct ∧ r.schedule_variance < 0 ∧ r.cpi < 1) ∧
    ((0 ≤ (0:ℚ)) ∧
      (∀ k : ℕ, inRange (fRange .onTrack) ((fun _ => (1:ℚ)) k)) ∧
      (∀ k : ℕ, inRange (gRange .onTrack) ((fun _ => (1:ℚ)) k)) ∧
      ∀ r ∈ genRows NUM_WEEKS 0 "WS_001" (fun _ => (1:ℚ)) (fun _ => (1:ℚ)),
        r.week_ending = NUM_WEEKS - 1 →
        -5 ≤ r.schedule_variance ∧ r.schedule_variance ≤ 5) :=
  ⟨⟨le_refl 0,
    fun k => by norm_num [inRange, fRange],
    fun k => by norm_num [inRange, gRange],
    c7_persona_terminal_behaviour.1 0 "WS_002" _ _ (le_refl 0)
      (fun k => by norm_num [inRange, fRange])
      (fun k => by norm_num [inRange, gRange])⟩,
   ⟨le_refl 0,
    fun k => by norm_num [inRange, fRange],
    fun k => by norm_num [inRange, gRange],
    c7_persona_terminal_behaviour.2 0 "WS_001" _ _ (le_refl 0)
      (fun k => by norm_num [inRange, fRange])
      (fun k => by norm_num [inRange, gRange])⟩⟩

/-! ### Construction-time validation (modelled from the spec) -/

/-- C9: constructing a ProgressSnapshot with a percentage outside `[0, 100]`
or a negative cost, or a ChangeRequest with an unknown status or a negative
cost, fails with a `ValidationError`; every accepted value is stored exactly
as given (never clamped) and satisfies the §3 invariants. -/
theorem c9_validation_contract (week : Date) (i : String)
    (planned actual spent : ℚ) (cid : String) (d : Date) (t s : String)
    (cost : ℚ) (days : ℤ) :
    ((planned < 0 ∨ 100 < planned ∨ actual < 0 ∨ 100 < actual ∨ spent < 0) →
      ∃ e, mkProgressSnapshot week i planned actual spent = .error e) ∧
    (∀ r, mkProgressSnapshot week i planned actual spent = .ok r →
      r.week_ending = week ∧ r.ws_id = i ∧ r.planned_pct = planned ∧
      r.actual_pct = actual ∧ r.budget_spent = spent ∧
      0 ≤ r.planned_pct ∧ r.planned_pct ≤ 100 ∧
      0 ≤ r.actual_pct ∧ r.actual_pct ≤ 100 ∧ 0 ≤ r.budget_spent) ∧
    ((s ∉ validStatuses ∨ cost < 0) →
      ∃ e, mkChangeRequest cid i d t s cost days = .error e) ∧
    (∀ c, mkChangeRequest cid i d t s cost days = .ok c →
      c.status = s ∧ c.cost_impact = cost ∧
      c.status ∈ validStatuses ∧ 0 ≤ c.cost_impact) := by
  refine ⟨?_, ?_, ?_, ?_⟩
  · intro hbad
    unfold mkProgressSnapshot
    by_cases h1 : planned < 0 ∨ 100 < planned
    · simp [h1]
    · by_cases h2 : actual < 0 ∨ 100 < actual
      · simp [h1, h2]
      · have h3 : spent < 0 := by
          push_neg at h1 h2
          rcases hbad with h | h | h | h | h
          · linarith [h1.1]
          · linarith [h1.2]
          · linarith [h2.1]
          · linarith [h2.2]
          · exact h
        simp [h1, h2, h3]
  · intro r hr
    unfold mkProgressSnapshot at hr
    by_cases h1 : planned < 0 ∨ 100 < planned
    · simp [h1] at hr
    · by_cases h2 : actual < 0 ∨ 100 < actual
      · simp [h1, h2] at hr
      · by_cases h3 : spent < 0
        · simp [h1, h2, h3] at hr
        · simp [h1, h2, h3] at hr
          push_neg at h1 h2 h3
          subst hr
          exact ⟨rfl, rfl, rfl, rfl, rfl, h1.1, h1.2, h2.1, h2.2, h3⟩
  · intro hbad
    unfold mkChangeRequest
    by_cases h1 : s ∉ validStatuses
    · simp [h1]
    · have h2 : cost < 0 := by tauto
      simp [h1, h2]
  · intro c hc
    unfold mkChangeRequest at hc
    by_cases h1 : s ∉ validStatuses
    · simp [h1] at hc
    · by_cases h2 : cost < 0
      · simp [h1, h2] at hc
      · simp [h1, h2] at hc
        subst hc
        push_neg at h1 h2
        exact ⟨rfl, rfl, h1, h2⟩

theorem c9_validation_contract_witness :
    (((150:ℚ) < 0 ∨ (100:ℚ) < 150 ∨ (50:ℚ) < 0 ∨ (100:ℚ) < 50 ∨ (1:ℚ) < 0) ∧
      ∃ e, mkProgressSnapshot 0 "WS_001" 150 50 1 = .error e) ∧
    (("Weird" ∉ validStatuses ∨ (-1:ℚ) < 0) ∧
      ∃ e, mkChangeRequest "CR_1000" "WS_001" 0 "t" "Weird" (-1) 3 = .error e) :=
  ⟨⟨by norm_num,
    (c9_validation_contract 0 "WS_001" 150 50 1 "CR_1000" 0 "t" "Weird" (-1) 3).1
      (by norm_num)⟩,
   ⟨Or.inr (by norm_num),
    (c9_validation_contract 0 "WS_001" 150 50 1 "CR_1000" 0 "t" "Weird" (-1) 3).2.2.1
      (Or.inr (by norm_num))⟩⟩

end Oversight
